import Mathlib

/-!
# Consumer offset collection (`src/consumeroffset/collect.go`)

A shallow embedding of `Collect` and `setMetrics`.

* Go maps are association lists, in the iteration order of the run at hand.
* The collaborators (the broker admin client, the metrics SDK, and the helpers of the
  package that live in other files) are functions on an abstract world `W`: a call takes
  the world before it and returns its answer together with the world after it, so the same
  call may answer differently at different moments of a run.
* A run of `Collect` yields the returned error (`none` is Go's `nil`) and the trace of the
  calls it made, in program order. A call carries its arguments, and
  `fillTopicPartitions` also its answer.
-/

namespace ConsumerOffset

/-! ## Data -/

/-- Two's-complement wrap of an integer into the range of Go's `int64`. -/
def wrapInt64 (x : Int) : Int :=
  (x + 9223372036854775808) % 18446744073709551616 - 9223372036854775808

/-- Go's `a - b` on `int64`. -/
def subInt64 (a b : Int) : Int := wrapInt64 (a - b)

/-- The struct `partitionOffsets`; a nil `*int64` is `none`. -/
structure partitionOffsets where
  Topic : String
  Partition : String
  ConsumerOffset : Option Int
  HighWaterMark : Option Int
  ConsumerLag : Option Int
deriving DecidableEq, Repr

/-- The type `TopicPartitions`, `map[string][]int32`. -/
abbrev TopicPartitions := List (String × List Int)

/-- Modelled from the spec: the type of the offset record that `getConsumerOffsets` returns
is declared outside `collect.go`. Section 3: a mapping `(topic, partition) → optional int64`,
where an absent value means that the fetch failed or nothing is committed yet. -/
abbrev OffsetRecord := List ((String × Int) × Option Int)

/-- Modelled from the spec: the type of the record that `getHighWaterMarks` returns is
declared outside `collect.go`. Section 3: a mapping `(topic, partition) → optional int64`. -/
abbrev WatermarkRecord := List ((String × Int) × Option Int)

/-- The value a record holds for a key; a key that is missing and a key that is bound to an
absent value both give `none`. -/
def recordValue (record : List ((String × Int) × Option Int)) (key : String × Int) :
    Option Int :=
  (record.lookup key).join

/-- The keys `(topic, partition)` present in either record, each once. -/
def recordKeys (offsets : OffsetRecord) (hwms : WatermarkRecord) : List (String × Int) :=
  (offsets.map Prod.fst ++ hwms.map Prod.fst).dedup

/-- The lag of one partition: set only when both inputs are present. -/
def consumerLag : Option Int → Option Int → Option Int
  | some offset, some hwm => some (subInt64 hwm offset)
  | _, _ => none

/-- Modelled from the spec: `populateOffsetStructs` is defined outside `collect.go`.
Section 4.4: a pure function that takes one offset record and one watermark record and
produces one metric per `(topic, partition)` present in either record; a partition present
in only one record yields a metric with the other field absent and `consumerLag` absent.
Section 3: `consumerLag` is set iff both inputs are present, and then is
`highWaterMark - consumerOffset`. -/
def populateOffsetStructs (offsets : OffsetRecord) (hwms : WatermarkRecord) :
    List partitionOffsets :=
  (recordKeys offsets hwms).map fun key =>
    { Topic := key.1
      Partition := toString key.2
      ConsumerOffset := recordValue offsets key
      HighWaterMark := recordValue hwms key
      ConsumerLag := consumerLag (recordValue offsets key) (recordValue hwms key) }

/-- The part of sarama's `GroupDescription` that `Collect` reads. -/
structure GroupDescription where
  GroupId : String
  Members : List String
deriving DecidableEq, Repr

/-- The part of the SDK's entity that `setMetrics` reads: `Metadata.Name`. -/
structure Entity where
  Name : String
deriving DecidableEq, Repr

/-- The fields of `args.GlobalArgs` that the package reads. A compiled regex is the
predicate `MatchString`; a nil regex is `none`. -/
structure Args where
  ConsumerGroupRegex : Option (String → Bool)
  /-- Modelled from the spec: section 6, a mapping of group id to list of topic names. -/
  ConsumerGroups : List (String × List String)
  ClusterName : String

/-! ## Calls -/

/-- One call made during a run, with its arguments. The calls of the explicit path and of
`setMetrics` carry the consumer group they are made for as first argument, also where the
Go call itself does not take it (`getHighWaterMarks`, `NewMetricSet`, `MarshalMetrics`). -/
inductive Event where
  | newClusterAdminFromClient
  | listConsumerGroups
  | logDebugList (consumerGroupList : List String)
  | describeConsumerGroups (consumerGroupList : List String)
  | logDebugDescriptions
  | goCollectOffsetsForConsumerGroup (groupId : String) (members : List String)
  | logDebugUnmatched (unmatchedConsumerGroups : List String)
  | wgWait
  | logWarnDeprecated
  | fillTopicPartitions (consumerGroup : String) (topics : List String)
      (result : TopicPartitions)
  | logErrorNoTopics (consumerGroup : String)
  | getConsumerOffsets (consumerGroup : String) (topicPartitions : TopicPartitions)
  | logInfoConsumerOffsets (consumerGroup : String) (err : String)
  | getHighWaterMarks (consumerGroup : String) (topicPartitions : TopicPartitions)
  | logInfoHighWaterMarks (consumerGroup : String) (err : String)
  | setMetrics (consumerGroup : String) (offsetData : List partitionOffsets)
  | logErrorSetMetrics (consumerGroup : String) (err : String)
  | entity (consumerGroup : String) (entityType : String) (idAttr : String × String)
  | newMetricSet (consumerGroup : String) (eventType : String)
      (attributes : List (String × String))
  | marshalMetrics (consumerGroup : String) (offsetData : partitionOffsets)
  | logErrorMarshal (consumerGroup : String) (err : String)
deriving DecidableEq, Repr

/-- The collaborators of the package. An `Option String` answer is a Go `error`. -/
structure Collaborators (W : Type) where
  newClusterAdminFromClient : W → Option String × W
  listConsumerGroups : W → Except String (List (String × String)) × W
  describeConsumerGroups : List String → W → Except String (List GroupDescription) × W
  fillTopicPartitions : String → List String → W → TopicPartitions × W
  getConsumerOffsets : String → TopicPartitions → W → (OffsetRecord × Option String) × W
  getHighWaterMarks : TopicPartitions → W → (WatermarkRecord × Option String) × W
  entity : String → String → String × String → W → Except String Entity × W
  newMetricSet : String → List (String × String) → W → W
  marshalMetrics : partitionOffsets → W → Option String × W

variable {W : Type}

/-! ## `setMetrics` -/

/-- The log line of a failed call, if it failed. -/
def logIfErr (line : String → Event) : Option String → List Event
  | some err => [line err]
  | none => []

/-- The loop of `setMetrics` over the records (lines 110-121). -/
def marshalLoop (env : Collaborators W) (args : Args) (consumerGroup : String)
    (groupEntity : Entity) : List partitionOffsets → W → List Event × W
  | [], w => ([], w)
  | offsetData :: rest, w =>
    let attributes := [("displayName", groupEntity.Name),
      ("entityName", "consumerGroup:" ++ groupEntity.Name),
      ("clusterName", args.ClusterName)]
    let w1 := env.newMetricSet "KafkaOffsetSample" attributes w
    let marshaled := env.marshalMetrics offsetData w1
    let tail := marshalLoop env args consumerGroup groupEntity rest marshaled.2
    ([Event.newMetricSet consumerGroup "KafkaOffsetSample" attributes,
      Event.marshalMetrics consumerGroup offsetData]
      ++ logIfErr (Event.logErrorMarshal consumerGroup) marshaled.1 ++ tail.1, tail.2)

/-- The function `setMetrics` (lines 103-124): the returned error, the calls made, and the
world afterwards. -/
def setMetrics (env : Collaborators W) (args : Args) (consumerGroup : String)
    (offsetData : List partitionOffsets) (w : W) : Option String × List Event × W :=
  let clusterIDAttr := ("clusterName", args.ClusterName)
  let created := env.entity consumerGroup "ka-consumerGroup" clusterIDAttr w
  match created.1 with
  | Except.error err =>
    (some err, [Event.entity consumerGroup "ka-consumerGroup" clusterIDAttr], created.2)
  | Except.ok groupEntity =>
    let looped := marshalLoop env args consumerGroup groupEntity offsetData created.2
    (none, Event.entity consumerGroup "ka-consumerGroup" clusterIDAttr :: looped.1, looped.2)

/-! ## `Collect` -/

/-- Lines 41-44: `make([]string, len(consumerGroupMap))` followed by one `append` per key
of the map. -/
def consumerGroupList (consumerGroupMap : List (String × String)) : List String :=
  consumerGroupMap.foldl (fun list kv => list ++ [kv.1])
    (List.replicate consumerGroupMap.length "")

/-- The loop over the described groups (lines 53-62): the unmatched group ids and the
tasks started, both in the order of the loop. -/
def matchLoop (regex : String → Bool) :
    List GroupDescription → List String × List Event → List String × List Event
  | [], state => state
  | consumerGroup :: rest, (unmatchedConsumerGroups, started) =>
    if regex consumerGroup.GroupId then
      matchLoop regex rest (unmatchedConsumerGroups,
        started ++ [Event.goCollectOffsetsForConsumerGroup consumerGroup.GroupId
          consumerGroup.Members])
    else
      matchLoop regex rest (unmatchedConsumerGroups ++ [consumerGroup.GroupId], started)

/-- The body of the loop over `args.GlobalArgs.ConsumerGroups` (lines 74-93). -/
def collectGroup (env : Collaborators W) (args : Args) (consumerGroup : String)
    (topics : List String) (w : W) : List Event × W :=
  let filled := env.fillTopicPartitions consumerGroup topics w
  let topicPartitions := filled.1
  if topicPartitions.length = 0 then
    ([Event.fillTopicPartitions consumerGroup topics topicPartitions,
      Event.logErrorNoTopics consumerGroup], filled.2)
  else
    let offsets := env.getConsumerOffsets consumerGroup topicPartitions filled.2
    let marks := env.getHighWaterMarks topicPartitions offsets.2
    let offsetStructs := populateOffsetStructs offsets.1.1 marks.1.1
    let emitted := setMetrics env args consumerGroup offsetStructs marks.2
    ([Event.fillTopicPartitions consumerGroup topics topicPartitions,
      Event.getConsumerOffsets consumerGroup topicPartitions]
      ++ logIfErr (Event.logInfoConsumerOffsets consumerGroup) offsets.1.2
      ++ [Event.getHighWaterMarks consumerGroup topicPartitions]
      ++ logIfErr (Event.logInfoHighWaterMarks consumerGroup) marks.1.2
      ++ [Event.setMetrics consumerGroup offsetStructs]
      ++ emitted.2.1
      ++ logIfErr (Event.logErrorSetMetrics consumerGroup) emitted.1, emitted.2.2)

/-- The loop over `args.GlobalArgs.ConsumerGroups` (line 73). -/
def collectLoop (env : Collaborators W) (args : Args) :
    List (String × List String) → W → List Event × W
  | [], w => ([], w)
  | (consumerGroup, topics) :: rest, w =>
    let first := collectGroup env args consumerGroup topics w
    let tail := collectLoop env args rest first.2
    (first.1 ++ tail.1, tail.2)

/-- The error of line 96. -/
def configurationError : String :=
  "if consumer_offset is set, either consumer_group_regex or consumer_groups "
    ++ "(deprecated) must also be set"

/-- The function `Collect` (lines 29-100): the returned error and the calls made. The work
of the tasks started with `go` runs beside `Collect` and is not part of its trace. -/
def Collect (env : Collaborators W) (args : Args) (w : W) : Option String × List Event :=
  let admin := env.newClusterAdminFromClient w
  match admin.1 with
  | some err =>
    (some ("failed to create cluster admin: " ++ err), [Event.newClusterAdminFromClient])
  | none =>
    match args.ConsumerGroupRegex with
    | some regex =>
      let listed := env.listConsumerGroups admin.2
      match listed.1 with
      | Except.error err =>
        (some ("failed to get list of consumer groups: " ++ err),
          [Event.newClusterAdminFromClient, Event.listConsumerGroups])
      | Except.ok consumerGroupMap =>
        let ids := consumerGroupList consumerGroupMap
        let described := env.describeConsumerGroups ids listed.2
        match described.1 with
        | Except.error err =>
          (some ("failed to get consumer group descriptions: " ++ err),
            [Event.newClusterAdminFromClient, Event.listConsumerGroups,
              Event.logDebugList ids, Event.describeConsumerGroups ids])
        | Except.ok consumerGroups =>
          let looped := matchLoop regex consumerGroups ([], [])
          (none,
            [Event.newClusterAdminFromClient, Event.listConsumerGroups,
              Event.logDebugList ids, Event.describeConsumerGroups ids,
              Event.logDebugDescriptions]
            ++ looped.2
            ++ (if looped.1.length > 0 then [Event.logDebugUnmatched looped.1] else [])
            ++ [Event.wgWait])
    | none =>
      if args.ConsumerGroups.length ≠ 0 then
        (none,
          [Event.newClusterAdminFromClient, Event.logWarnDeprecated]
          ++ (collectLoop env args args.ConsumerGroups admin.2).1)
      else
        (some configurationError, [Event.newClusterAdminFromClient])

/-! ## Reading a trace -/

/-- The consumer group a call of the explicit path or of `setMetrics` is made for. -/
def Event.group : Event → Option String
  | Event.fillTopicPartitions g _ _ => some g
  | Event.logErrorNoTopics g => some g
  | Event.getConsumerOffsets g _ => some g
  | Event.logInfoConsumerOffsets g _ => some g
  | Event.getHighWaterMarks g _ => some g
  | Event.logInfoHighWaterMarks g _ => some g
  | Event.setMetrics g _ => some g
  | Event.logErrorSetMetrics g _ => some g
  | Event.entity g _ _ => some g
  | Event.newMetricSet g _ _ => some g
  | Event.marshalMetrics g _ => some g
  | Event.logErrorMarshal g _ => some g
  | _ => none

/-- A log line. -/
def Event.isLog : Event → Bool
  | Event.logDebugList _ => true
  | Event.logDebugDescriptions => true
  | Event.logDebugUnmatched _ => true
  | Event.logWarnDeprecated => true
  | Event.logErrorNoTopics _ => true
  | Event.logInfoConsumerOffsets _ _ => true
  | Event.logInfoHighWaterMarks _ _ => true
  | Event.logErrorSetMetrics _ _ => true
  | Event.logErrorMarshal _ _ => true
  | _ => false

/-- The task a call starts, if it starts one. -/
def Event.started : Event → Option (String × List String)
  | Event.goCollectOffsetsForConsumerGroup groupId members => some (groupId, members)
  | _ => none

/-- A call made inside `setMetrics`, or its log line. -/
def Event.inSetMetrics : Event → Bool
  | Event.entity _ _ _ => true
  | Event.newMetricSet _ _ _ => true
  | Event.marshalMetrics _ _ => true
  | Event.logErrorMarshal _ _ => true
  | _ => false

/-- The part of a trace made for one consumer group, log lines included. -/
def eventsFor (consumerGroup : String) (trace : List Event) : List Event :=
  trace.filter fun e => e.group == some consumerGroup

/-- A call of `fillTopicPartitions` for the group. -/
def Event.isFillTopicPartitions (consumerGroup : String) : Event → Bool
  | Event.fillTopicPartitions g _ _ => g == consumerGroup
  | _ => false

/-- A call of `getConsumerOffsets` for the group. -/
def Event.isGetConsumerOffsets (consumerGroup : String) : Event → Bool
  | Event.getConsumerOffsets g _ => g == consumerGroup
  | _ => false

/-- A call of `getHighWaterMarks` for the group. -/
def Event.isGetHighWaterMarks (consumerGroup : String) : Event → Bool
  | Event.getHighWaterMarks g _ => g == consumerGroup
  | _ => false

/-- A call of `setMetrics` for the group. -/
def Event.isSetMetrics (consumerGroup : String) : Event → Bool
  | Event.setMetrics g _ => g == consumerGroup
  | _ => false

/-- A call of the metrics SDK for the group: entity creation, metric set creation or
marshaling. -/
def Event.isEmission (consumerGroup : String) : Event → Bool
  | Event.entity g _ _ => g == consumerGroup
  | Event.newMetricSet g _ _ => g == consumerGroup
  | Event.marshalMetrics g _ => g == consumerGroup
  | _ => false

/-! ## Concrete runs -/

/-- A cluster on which every call succeeds. It lists and describes the groups `g1`, `g2`
and `other`; every topic has the one partition 0, with committed offset 100 and
high-water mark 150 for `topicA`. -/
def steady : Collaborators Unit where
  newClusterAdminFromClient := fun w => (none, w)
  listConsumerGroups := fun w =>
    (Except.ok [("g1", "consumer"), ("g2", "consumer"), ("other", "consumer")], w)
  describeConsumerGroups := fun _ w =>
    (Except.ok [⟨"g1", ["m1"]⟩, ⟨"g2", []⟩, ⟨"other", ["m2"]⟩], w)
  fillTopicPartitions := fun _ topics w => (topics.map fun topic => (topic, [0]), w)
  getConsumerOffsets := fun _ _ w => (([(("topicA", 0), some 100)], none), w)
  getHighWaterMarks := fun _ w => (([(("topicA", 0), some 150)], none), w)
  entity := fun consumerGroup _ _ w => (Except.ok ⟨consumerGroup⟩, w)
  newMetricSet := fun _ _ w => w
  marshalMetrics := fun _ w => (none, w)

/-- A cluster whose admin handle cannot be created. -/
def unreachable : Collaborators Unit :=
  { steady with newClusterAdminFromClient := fun w => (some "EOF", w) }

/-- A cluster on which the recoverable calls fail: every offset fetch times out, the entity
of `g2` cannot be created, and a record without lag cannot be marshaled. -/
def faulty : Collaborators Unit :=
  { steady with
    getConsumerOffsets := fun _ _ w => (([], some "timeout"), w)
    entity := fun consumerGroup _ _ w =>
      if consumerGroup = "g2" then (Except.error "no entity", w)
      else (Except.ok ⟨consumerGroup⟩, w)
    marshalMetrics := fun offsetData w =>
      if offsetData.ConsumerLag = none then (some "no lag", w) else (none, w) }

/-- Neither `consumer_group_regex` nor `consumer_groups` is set. -/
def unconfiguredArgs : Args := ⟨none, [], "cluster"⟩

/-- The explicit mapping with the one group `g1` and the one topic `topicA`. -/
def singleGroupArgs : Args := ⟨none, [("g1", ["topicA"])], "cluster"⟩

/-- An explicit mapping of three groups, the first of them without topics. -/
def explicitArgs : Args :=
  ⟨none, [("g0", []), ("g1", ["topicA"]), ("g2", ["topicA"])], "cluster"⟩

/-- A regex that matches `g1` and `g2` only, set together with an explicit mapping. -/
def regexArgs : Args :=
  ⟨some (fun groupId => groupId == "g1" || groupId == "g2"), [("g1", ["topicA"])],
    "cluster"⟩

/-- The record of `topicA`, partition 0, with offset 100 and high-water mark 150. -/
def lagExample : partitionOffsets := ⟨"topicA", "0", some 100, some 150, some 50⟩

/-- The record of `topicA`, partition 0, when only the high-water mark is known. -/
def noLagExample : partitionOffsets := ⟨"topicA", "0", none, some 150, none⟩

/-! ## Lemmas -/

theorem logIfErr_group (line : String → Event) (g : String) (err : Option String)
    (hline : ∀ s, (line s).group = some g) : ∀ e ∈ logIfErr line err, e.group = some g := by
  intro e he
  cases err with
  | none => simp [logIfErr] at he
  | some s =>
    simp only [logIfErr, List.mem_singleton] at he
    rw [he]; exact hline s

theorem logIfErr_isLog (line : String → Event) (err : Option String)
    (hline : ∀ s, (line s).isLog = true) :
    (logIfErr line err).filter (fun e => !e.isLog) = [] := by
  cases err with
  | none => rfl
  | some s => simp [logIfErr, hline s]

theorem marshalLoop_group (env : Collaborators W) (args : Args) (g : String)
    (groupEntity : Entity) (records : List partitionOffsets) :
    ∀ w, ∀ e ∈ (marshalLoop env args g groupEntity records w).1, e.group = some g := by
  induction records with
  | nil => intro w e he; simp [marshalLoop] at he
  | cons r rest ih =>
    intro w e he
    simp only [marshalLoop, List.mem_append, List.mem_cons] at he
    rcases he with (he | he) | he
    · rcases he with he | he | he
      · rw [he]; rfl
      · rw [he]; rfl
      · simp at he
    · exact logIfErr_group (Event.logErrorMarshal g) g _ (fun _ => rfl) e he
    · exact ih _ e he

theorem marshalLoop_calls (env : Collaborators W) (args : Args) (g : String)
    (groupEntity : Entity) (records : List partitionOffsets) :
    ∀ w, (marshalLoop env args g groupEntity records w).1.filter (fun e => !e.isLog) =
      records.flatMap fun r =>
        [Event.newMetricSet g "KafkaOffsetSample"
          [("displayName", groupEntity.Name),
            ("entityName", "consumerGroup:" ++ groupEntity.Name),
            ("clusterName", args.ClusterName)],
          Event.marshalMetrics g r] := by
  induction records with
  | nil => intro w; rfl
  | cons r rest ih =>
    intro w
    simp only [marshalLoop, List.filter_append, List.flatMap_cons, ih]
    rw [logIfErr_isLog (Event.logErrorMarshal g) _ (fun _ => rfl)]
    simp [Event.isLog]

theorem consumerGroupList_eq (consumerGroupMap : List (String × String)) :
    consumerGroupList consumerGroupMap =
      List.replicate consumerGroupMap.length "" ++ consumerGroupMap.map Prod.fst := by
  unfold consumerGroupList
  generalize List.replicate consumerGroupMap.length "" = init
  induction consumerGroupMap generalizing init with
  | nil => simp
  | cons kv rest ih => simp [ih]

theorem matchLoop_eq (regex : String → Bool) (consumerGroups : List GroupDescription) :
    ∀ unmatched started, matchLoop regex consumerGroups (unmatched, started) =
      (unmatched ++ (consumerGroups.filter fun cg => !regex cg.GroupId).map
          GroupDescription.GroupId,
        started ++ (consumerGroups.filter fun cg => regex cg.GroupId).map fun cg =>
          Event.goCollectOffsetsForConsumerGroup cg.GroupId cg.Members) := by
  induction consumerGroups with
  | nil => intro u s; simp [matchLoop]
  | cons cg rest ih =>
    intro u s
    by_cases h : regex cg.GroupId = true
    · simp [matchLoop, h, ih]
    · simp [matchLoop, h, ih]

theorem marshalLoop_inSetMetrics (env : Collaborators W) (args : Args) (g : String)
    (groupEntity : Entity) (records : List partitionOffsets) :
    ∀ w, ∀ e ∈ (marshalLoop env args g groupEntity records w).1, e.inSetMetrics = true := by
  induction records with
  | nil => intro w e he; simp [marshalLoop] at he
  | cons r rest ih =>
    intro w e he
    simp only [marshalLoop, List.mem_append, List.mem_cons] at he
    rcases he with (he | he) | he
    · rcases he with he | he | he
      · rw [he]; rfl
      · rw [he]; rfl
      · simp at he
    · cases hm : (env.marshalMetrics r (env.newMetricSet "KafkaOffsetSample"
        [("displayName", groupEntity.Name),
          ("entityName", "consumerGroup:" ++ groupEntity.Name),
          ("clusterName", args.ClusterName)] w)).1 with
      | none => rw [hm] at he; simp [logIfErr] at he
      | some err =>
        rw [hm] at he
        simp only [logIfErr, List.mem_singleton] at he
        rw [he]; rfl
    · exact ih _ e he

theorem marshalLoop_marshaled (env : Collaborators W) (args : Args) (g : String)
    (groupEntity : Entity) (records : List partitionOffsets) (g' : String)
    (r : partitionOffsets) :
    ∀ w, Event.marshalMetrics g' r ∈ (marshalLoop env args g groupEntity records w).1 →
      r ∈ records := by
  induction records with
  | nil => intro w he; simp [marshalLoop] at he
  | cons r0 rest ih =>
    intro w he
    simp only [marshalLoop, List.mem_append, List.mem_cons] at he
    rcases he with (he | he) | he
    · rcases he with he | he | he
      · cases he
      · injection he with _ hr
        simp [hr]
      · simp at he
    · cases hm : (env.marshalMetrics r0 (env.newMetricSet "KafkaOffsetSample"
        [("displayName", groupEntity.Name),
          ("entityName", "consumerGroup:" ++ groupEntity.Name),
          ("clusterName", args.ClusterName)] w)).1 with
      | none => rw [hm] at he; simp [logIfErr] at he
      | some err =>
        rw [hm] at he
        simp [logIfErr] at he
    · exact List.mem_cons_of_mem _ (ih _ he)

theorem setMetrics_group (env : Collaborators W) (args : Args) (g : String)
    (records : List partitionOffsets) (w : W) :
    ∀ e ∈ (setMetrics env args g records w).2.1, e.group = some g := by
  intro e he
  cases h : (env.entity g "ka-consumerGroup" ("clusterName", args.ClusterName) w).1 with
  | error err =>
    simp only [setMetrics, h, List.mem_singleton] at he
    rw [he]; rfl
  | ok groupEntity =>
    simp only [setMetrics, h, List.mem_cons] at he
    rcases he with he | he
    · rw [he]; rfl
    · exact marshalLoop_group env args g groupEntity records _ e he

theorem setMetrics_inSetMetrics (env : Collaborators W) (args : Args) (g : String)
    (records : List partitionOffsets) (w : W) :
    ∀ e ∈ (setMetrics env args g records w).2.1, e.inSetMetrics = true := by
  intro e he
  cases h : (env.entity g "ka-consumerGroup" ("clusterName", args.ClusterName) w).1 with
  | error err =>
    simp only [setMetrics, h, List.mem_singleton] at he
    rw [he]; rfl
  | ok groupEntity =>
    simp only [setMetrics, h, List.mem_cons] at he
    rcases he with he | he
    · rw [he]; rfl
    · exact marshalLoop_inSetMetrics env args g groupEntity records _ e he

theorem setMetrics_marshaled (env : Collaborators W) (args : Args) (g : String)
    (records : List partitionOffsets) (w : W) (g' : String) (r : partitionOffsets)
    (he : Event.marshalMetrics g' r ∈ (setMetrics env args g records w).2.1) :
    r ∈ records := by
  cases h : (env.entity g "ka-consumerGroup" ("clusterName", args.ClusterName) w).1 with
  | error err =>
    simp [setMetrics, h] at he
  | ok groupEntity =>
    simp only [setMetrics, h, List.mem_cons] at he
    rcases he with he | he
    · cases he
    · exact marshalLoop_marshaled env args g groupEntity records g' r _ he

/-- The trace of one turn of the explicit loop whose topic partitions resolve empty. -/
theorem collectGroup_empty (env : Collaborators W) (args : Args) (g : String)
    (topics : List String) (w : W)
    (h : (env.fillTopicPartitions g topics w).1 = []) :
    (collectGroup env args g topics w).1 =
      [Event.fillTopicPartitions g topics [], Event.logErrorNoTopics g] := by
  simp [collectGroup, h]

/-- The trace of one turn of the explicit loop whose topic partitions resolve non-empty,
split at the high-water-mark fetch. -/
theorem collectGroup_nonempty (env : Collaborators W) (args : Args) (g : String)
    (topics : List String) (w : W)
    (h : (env.fillTopicPartitions g topics w).1 ≠ []) :
    ∃ (log1 log2 log3 : List Event) (records : List partitionOffsets) (emitted : List Event),
      (collectGroup env args g topics w).1 =
        ([Event.fillTopicPartitions g topics (env.fillTopicPartitions g topics w).1,
          Event.getConsumerOffsets g (env.fillTopicPartitions g topics w).1] ++ log1)
        ++ (Event.getHighWaterMarks g (env.fillTopicPartitions g topics w).1 ::
          (log2 ++ [Event.setMetrics g records] ++ emitted ++ log3)) ∧
      (∀ e ∈ log1 ++ log2 ++ log3, e.isLog = true ∧ e.group = some g) ∧
      (∀ e ∈ emitted, e.inSetMetrics = true ∧ e.group = some g) ∧
      (∃ w1 w2, records = populateOffsetStructs
        (env.getConsumerOffsets g (env.fillTopicPartitions g topics w).1 w1).1.1
        (env.getHighWaterMarks (env.fillTopicPartitions g topics w).1 w2).1.1) ∧
      (∃ w3, emitted = (setMetrics env args g records w3).2.1) := by
  have hlen : ¬ (env.fillTopicPartitions g topics w).1.length = 0 := by
    simpa using h
  refine ⟨logIfErr (Event.logInfoConsumerOffsets g)
      (env.getConsumerOffsets g (env.fillTopicPartitions g topics w).1
        (env.fillTopicPartitions g topics w).2).1.2,
    logIfErr (Event.logInfoHighWaterMarks g)
      (env.getHighWaterMarks (env.fillTopicPartitions g topics w).1
        (env.getConsumerOffsets g (env.fillTopicPartitions g topics w).1
          (env.fillTopicPartitions g topics w).2).2).1.2,
    logIfErr (Event.logErrorSetMetrics g) (setMetrics env args g
      (populateOffsetStructs
        (env.getConsumerOffsets g (env.fillTopicPartitions g topics w).1
          (env.fillTopicPartitions g topics w).2).1.1
        (env.getHighWaterMarks (env.fillTopicPartitions g topics w).1
          (env.getConsumerOffsets g (env.fillTopicPartitions g topics w).1
            (env.fillTopicPartitions g topics w).2).2).1.1)
      (env.getHighWaterMarks (env.fillTopicPartitions g topics w).1
        (env.getConsumerOffsets g (env.fillTopicPartitions g topics w).1
          (env.fillTopicPartitions g topics w).2).2).2).1,
    populateOffsetStructs
      (env.getConsumerOffsets g (env.fillTopicPartitions g topics w).1
        (env.fillTopicPartitions g topics w).2).1.1
      (env.getHighWaterMarks (env.fillTopicPartitions g topics w).1
        (env.getConsumerOffsets g (env.fillTopicPartitions g topics w).1
          (env.fillTopicPartitions g topics w).2).2).1.1,
    (setMetrics env args g
      (populateOffsetStructs
        (env.getConsumerOffsets g (env.fillTopicPartitions g topics w).1
          (env.fillTopicPartitions g topics w).2).1.1
        (env.getHighWaterMarks (env.fillTopicPartitions g topics w).1
          (env.getConsumerOffsets g (env.fillTopicPartitions g topics w).1
            (env.fillTopicPartitions g topics w).2).2).1.1)
      (env.getHighWaterMarks (env.fillTopicPartitions g topics w).1
        (env.getConsumerOffsets g (env.fillTopicPartitions g topics w).1
          (env.fillTopicPartitions g topics w).2).2).2).2.1,
    ?_, ?_, ?_, ⟨_, _, rfl⟩, ⟨_, rfl⟩⟩
  · simp only [collectGroup, hlen, if_false, List.append_assoc, List.cons_append,
      List.nil_append]
  · intro e he
    simp only [List.mem_append] at he
    have hlog : ∀ (line : String → Event) (err : Option String),
        (∀ s, (line s).isLog = true ∧ (line s).group = some g) →
        e ∈ logIfErr line err → e.isLog = true ∧ e.group = some g := by
      intro line err hline he
      cases err with
      | none => simp [logIfErr] at he
      | some s =>
        simp only [logIfErr, List.mem_singleton] at he
        rw [he]; exact hline s
    rcases he with (he | he) | he
    · exact hlog (Event.logInfoConsumerOffsets g) _ (fun _ => ⟨rfl, rfl⟩) he
    · exact hlog (Event.logInfoHighWaterMarks g) _ (fun _ => ⟨rfl, rfl⟩) he
    · exact hlog (Event.logErrorSetMetrics g) _ (fun _ => ⟨rfl, rfl⟩) he
  · intro e he
    exact ⟨setMetrics_inSetMetrics env args g _ _ e he, setMetrics_group env args g _ _ e he⟩

theorem collectGroup_group (env : Collaborators W) (args : Args) (g : String)
    (topics : List String) (w : W) :
    ∀ e ∈ (collectGroup env args g topics w).1, e.group = some g := by
  intro e he
  by_cases h : (env.fillTopicPartitions g topics w).1 = []
  · rw [collectGroup_empty env args g topics w h] at he
    simp only [List.mem_cons, List.mem_singleton] at he
    rcases he with he | he | he
    · rw [he]; rfl
    · rw [he]; rfl
    · simp at he
  · obtain ⟨log1, log2, log3, records, emitted, htrace, hlogs, hemitted, _, _⟩ :=
      collectGroup_nonempty env args g topics w h
    rw [htrace] at he
    simp only [List.mem_append, List.mem_cons, List.mem_singleton] at he
    rcases he with ((he | he | he) | he) | he | ((he | he) | he) | he
    · rw [he]; rfl
    · rw [he]; rfl
    · simp at he
    · exact (hlogs e (by simp [he])).2
    · rw [he]; rfl
    · exact (hlogs e (by simp [he])).2
    · rcases he with he | he
      · rw [he]; rfl
      · simp at he
    · exact (hemitted e he).2
    · exact (hlogs e (by simp [he])).2

theorem collectLoop_group (env : Collaborators W) (args : Args)
    (groups : List (String × List String)) :
    ∀ w, ∀ e ∈ (collectLoop env args groups w).1,
      ∃ g, g ∈ groups.map Prod.fst ∧ e.group = some g := by
  induction groups with
  | nil => intro w e he; simp [collectLoop] at he
  | cons kv rest ih =>
    intro w e he
    obtain ⟨g0, t0⟩ := kv
    simp only [collectLoop, List.mem_append] at he
    rcases he with he | he
    · exact ⟨g0, by simp, collectGroup_group env args g0 t0 w e he⟩
    · obtain ⟨g, hg, heg⟩ := ih _ e he
      exact ⟨g, by simp [hg], heg⟩

theorem eventsFor_eq_self (g : String) (trace : List Event)
    (h : ∀ e ∈ trace, e.group = some g) : eventsFor g trace = trace := by
  unfold eventsFor
  rw [List.filter_eq_self]
  intro e he
  simp [h e he]

theorem eventsFor_eq_nil (g : String) (trace : List Event)
    (h : ∀ e ∈ trace, e.group ≠ some g) : eventsFor g trace = [] := by
  unfold eventsFor
  rw [List.filter_eq_nil_iff]
  intro e he
  simpa using h e he

/-- With distinct keys, the events of one group in the trace of the explicit loop are the
trace of that group's one turn. -/
theorem eventsFor_collectLoop (env : Collaborators W) (args : Args) (g : String)
    (topics : List String) (groups : List (String × List String)) :
    (groups.map Prod.fst).Nodup → (g, topics) ∈ groups →
    ∀ w, ∃ w', eventsFor g (collectLoop env args groups w).1 =
      (collectGroup env args g topics w').1 := by
  induction groups with
  | nil => intro _ hmem; simp at hmem
  | cons kv rest ih =>
    intro hnodup hmem w
    obtain ⟨g0, t0⟩ := kv
    simp only [List.map_cons, List.nodup_cons] at hnodup
    have happ : eventsFor g (collectLoop env args ((g0, t0) :: rest) w).1 =
        eventsFor g (collectGroup env args g0 t0 w).1 ++
        eventsFor g (collectLoop env args rest (collectGroup env args g0 t0 w).2).1 := by
      simp [collectLoop, eventsFor]
    rw [happ]
    rcases List.mem_cons.mp hmem with heq | hrest
    · have hg : g = g0 := congrArg Prod.fst heq
      have ht : topics = t0 := congrArg Prod.snd heq
      subst hg; subst ht
      refine ⟨w, ?_⟩
      rw [eventsFor_eq_self g _ (collectGroup_group env args g topics w),
        eventsFor_eq_nil g (collectLoop env args rest _).1, List.append_nil]
      intro e he heg
      obtain ⟨g', hg', heg'⟩ := collectLoop_group env args rest _ e he
      rw [heg] at heg'
      injection heg' with heq'
      exact hnodup.1 (heq' ▸ hg')
    · have hne : g ≠ g0 := by
        intro hg
        apply hnodup.1
        rw [← hg]
        exact List.mem_map_of_mem Prod.fst hrest
      obtain ⟨w', hw'⟩ := ih hnodup.2 hrest (collectGroup env args g0 t0 w).2
      refine ⟨w', ?_⟩
      rw [eventsFor_eq_nil g (collectGroup env args g0 t0 w).1, List.nil_append, hw']
      intro e he heg
      have := collectGroup_group env args g0 t0 w e he
      rw [heg] at this
      injection this with h'
      exact hne h'

/-- The trace of `Collect` in explicit mode. -/
theorem Collect_explicit (env : Collaborators W) (args : Args) (w : W)
    (hre : args.ConsumerGroupRegex = none)
    (hadmin : (env.newClusterAdminFromClient w).1 = none)
    (hcg : args.ConsumerGroups ≠ []) :
    Collect env args w = (none,
      [Event.newClusterAdminFromClient, Event.logWarnDeprecated] ++
        (collectLoop env args args.ConsumerGroups (env.newClusterAdminFromClient w).2).1) := by
  simp [Collect, hre, hadmin, hcg]

/-- Outside explicit mode no call of the trace of `Collect` is made for a group. -/
theorem Collect_group_none (env : Collaborators W) (args : Args) (w : W)
    (h : ¬ (args.ConsumerGroupRegex = none ∧ (env.newClusterAdminFromClient w).1 = none ∧
      args.ConsumerGroups ≠ [])) :
    ∀ e ∈ (Collect env args w).2, e.group = none := by
  cases hadmin : (env.newClusterAdminFromClient w).1 with
  | some err => simp [Collect, hadmin, Event.group]
  | none =>
    cases hre : args.ConsumerGroupRegex with
    | none =>
      have hcg : args.ConsumerGroups = [] := by
        by_contra hne
        exact h ⟨hre, hadmin, hne⟩
      simp [Collect, hadmin, hre, hcg, Event.group]
    | some regex =>
      cases hlist : (env.listConsumerGroups (env.newClusterAdminFromClient w).2).1 with
      | error err => simp [Collect, hadmin, hre, hlist, Event.group]
      | ok consumerGroupMap =>
        cases hdesc : (env.describeConsumerGroups (consumerGroupList consumerGroupMap)
          (env.listConsumerGroups (env.newClusterAdminFromClient w).2).2).1 with
        | error err => simp [Collect, hadmin, hre, hlist, hdesc, Event.group]
        | ok consumerGroups =>
          intro e he
          simp only [Collect, hadmin, hre, hlist, hdesc, matchLoop_eq, List.mem_append,
            List.mem_cons, List.mem_map, List.nil_append] at he
          rcases he with ((he | he) | he) | he
          · rcases he with he | he | he | he | he | he
            all_goals first | (rw [he]; rfl) | simp at he
          · obtain ⟨cg, _, rfl⟩ := he; rfl
          · split at he
            · simp only [List.mem_singleton] at he; rw [he]; rfl
            · simp at he
          · rcases he with he | he
            · rw [he]; rfl
            · simp at he

/-- In explicit mode with distinct keys, the events of one group of the mapping in the
trace of `Collect` are the trace of that group's one turn of the loop. -/
theorem eventsFor_Collect (env : Collaborators W) (args : Args) (w : W)
    (hre : args.ConsumerGroupRegex = none)
    (hadmin : (env.newClusterAdminFromClient w).1 = none)
    (hnodup : (args.ConsumerGroups.map Prod.fst).Nodup)
    (g : String) (topics : List String) (hmem : (g, topics) ∈ args.ConsumerGroups) :
    ∃ w', eventsFor g (Collect env args w).2 = (collectGroup env args g topics w').1 := by
  have hcg : args.ConsumerGroups ≠ [] := List.ne_nil_of_mem hmem
  obtain ⟨w', hw'⟩ := eventsFor_collectLoop env args g topics args.ConsumerGroups hnodup hmem
    (env.newClusterAdminFromClient w).2
  refine ⟨w', ?_⟩
  rw [Collect_explicit env args w hre hadmin hcg, ← hw']
  simp [eventsFor, Event.group]

theorem before_of_not_mem {b : Event} {q : Event → Prop} {l : List Event} (h : b ∉ l) :
    ∀ pre post, l = pre ++ b :: post → ∃ e ∈ pre, q e := by
  intro pre post hl
  exact absurd (hl ▸ by simp) h

theorem before_append {b : Event} {q : Event → Prop} {l1 l2 : List Event}
    (h1 : ∀ pre post, l1 = pre ++ b :: post → ∃ e ∈ pre, q e)
    (h2 : ∀ pre post, l2 = pre ++ b :: post → ∃ e ∈ pre, q e) :
    ∀ pre post, l1 ++ l2 = pre ++ b :: post → ∃ e ∈ pre, q e := by
  intro pre post hl
  rcases List.append_eq_append_iff.mp hl with ⟨a', hpre, hl2⟩ | ⟨c', hl1, hpost⟩
  · obtain ⟨e, he, hq⟩ := h2 a' post hl2
    exact ⟨e, by simp [hpre, he], hq⟩
  · cases c' with
    | nil =>
      simp only [List.nil_append] at hpost
      obtain ⟨e, he, _⟩ := h2 [] post (by simp [hpost])
      simp at he
    | cons c cs =>
      simp only [List.cons_append, List.cons.injEq] at hpost
      exact h1 pre cs (by rw [hl1, hpost.1])

theorem before_of_mem_left {b : Event} {q : Event → Prop} {l1 l2 : List Event}
    (ha : ∃ e ∈ l1, q e) (hb : b ∉ l1) :
    ∀ pre post, l1 ++ l2 = pre ++ b :: post → ∃ e ∈ pre, q e := by
  intro pre post hl
  rcases List.append_eq_append_iff.mp hl with ⟨a', hpre, _⟩ | ⟨c', hl1, hpost⟩
  · obtain ⟨e, he, hq⟩ := ha
    exact ⟨e, by simp [hpre, he], hq⟩
  · cases c' with
    | nil =>
      obtain ⟨e, he, hq⟩ := ha
      exact ⟨e, by simpa [hl1] using he, hq⟩
    | cons c cs =>
      simp only [List.cons_append, List.cons.injEq] at hpost
      exact absurd (by rw [hl1, hpost.1]; simp) hb

theorem after_of_not_mem {a : Event} {q : Event → Prop} {l : List Event} (h : a ∉ l) :
    ∀ pre post, l = pre ++ a :: post → ∃ e ∈ post, q e := by
  intro pre post hl
  exact absurd (hl ▸ by simp) h

theorem after_append {a : Event} {q : Event → Prop} {l1 l2 : List Event}
    (h1 : ∀ pre post, l1 = pre ++ a :: post → ∃ e ∈ post, q e)
    (h2 : ∀ pre post, l2 = pre ++ a :: post → ∃ e ∈ post, q e) :
    ∀ pre post, l1 ++ l2 = pre ++ a :: post → ∃ e ∈ post, q e := by
  intro pre post hl
  rcases List.append_eq_append_iff.mp hl with ⟨a', _, hl2⟩ | ⟨c', hl1, hpost⟩
  · exact h2 a' post hl2
  · cases c' with
    | nil =>
      simp only [List.nil_append] at hpost
      exact h2 [] post (by simp [hpost])
    | cons c cs =>
      simp only [List.cons_append, List.cons.injEq] at hpost
      obtain ⟨e, he, hq⟩ := h1 pre cs (by rw [hl1, hpost.1])
      exact ⟨e, by simp [hpost.2, he], hq⟩

theorem after_of_mem_right {a : Event} {q : Event → Prop} {l1 l2 : List Event}
    (hb : ∃ e ∈ l2, q e) (ha : a ∉ l2) :
    ∀ pre post, l1 ++ l2 = pre ++ a :: post → ∃ e ∈ post, q e := by
  intro pre post hl
  rcases List.append_eq_append_iff.mp hl with ⟨a', _, hl2⟩ | ⟨c', _, hpost⟩
  · exact absurd (by rw [hl2]; simp) ha
  · obtain ⟨e, he, hq⟩ := hb
    cases c' with
    | nil =>
      simp only [List.nil_append] at hpost
      exact absurd (by rw [← hpost]; simp) ha
    | cons c cs =>
      simp only [List.cons_append, List.cons.injEq] at hpost
      exact ⟨e, by simp [hpost.2, he], hq⟩

/-- In one turn of the explicit loop, what precedes a high-water-mark fetch holds the
topic resolution and the offset fetch of the same group. -/
theorem collectGroup_before (env : Collaborators W) (args : Args) (g0 : String)
    (topics : List String) (w : W) (g : String) (tp : TopicPartitions)
    (q : Event → Prop)
    (hq : q (Event.getConsumerOffsets g tp) ∨ q (Event.fillTopicPartitions g topics tp)) :
    ∀ pre post, (collectGroup env args g0 topics w).1 =
      pre ++ Event.getHighWaterMarks g tp :: post → ∃ e ∈ pre, q e := by
  by_cases h : (env.fillTopicPartitions g0 topics w).1 = []
  · rw [collectGroup_empty env args g0 topics w h]
    exact before_of_not_mem (by simp)
  · obtain ⟨log1, log2, log3, records, emitted, htrace, hlogs, hemitted, _, _⟩ :=
      collectGroup_nonempty env args g0 topics w h
    rw [htrace]
    have hnl : Event.getHighWaterMarks g tp ∉ log1 ++ log2 ++ log3 := by
      intro hmem
      have := (hlogs _ hmem).1
      simp [Event.isLog] at this
    have hnl1 : Event.getHighWaterMarks g tp ∉ log1 := fun hm => hnl (by simp [hm])
    have hnl2 : Event.getHighWaterMarks g tp ∉ log2 := fun hm => hnl (by simp [hm])
    have hnl3 : Event.getHighWaterMarks g tp ∉ log3 := fun hm => hnl (by simp [hm])
    have hnotem : Event.getHighWaterMarks g tp ∉ emitted := by
      intro hmem
      have := (hemitted _ hmem).1
      simp [Event.inSetMetrics] at this
    by_cases hb : Event.getHighWaterMarks g tp =
        Event.getHighWaterMarks g0 (env.fillTopicPartitions g0 topics w).1
    · injection hb with hg htp
      subst hg
      rw [← htp]
      apply before_of_mem_left
      · rcases hq with hq | hq
        · exact ⟨_, by simp, hq⟩
        · exact ⟨_, by simp, hq⟩
      · simp only [List.mem_append, List.mem_cons, List.mem_singleton, not_or]
        exact ⟨⟨by simp, by simp, by simp⟩, hnl1⟩
    · apply before_of_not_mem
      simp only [List.mem_append, List.mem_cons, List.mem_singleton, not_or]
      refine ⟨⟨⟨by simp, by simp, by simp⟩, hnl1⟩, hb,
        ⟨⟨hnl2, by simp⟩, hnotem⟩,
        hnl3⟩

/-- In one turn of the explicit loop, what follows an offset fetch holds the
high-water-mark fetch of the same group. -/
theorem collectGroup_after (env : Collaborators W) (args : Args) (g0 : String)
    (topics : List String) (w : W) (g : String) (tp : TopicPartitions) :
    ∀ pre post, (collectGroup env args g0 topics w).1 =
      pre ++ Event.getConsumerOffsets g tp :: post →
      ∃ e ∈ post, e = Event.getHighWaterMarks g tp := by
  by_cases h : (env.fillTopicPartitions g0 topics w).1 = []
  · rw [collectGroup_empty env args g0 topics w h]
    exact after_of_not_mem (by simp)
  · obtain ⟨log1, log2, log3, records, emitted, htrace, hlogs, hemitted, _, _⟩ :=
      collectGroup_nonempty env args g0 topics w h
    rw [htrace]
    have hnl : Event.getConsumerOffsets g tp ∉ log1 ++ log2 ++ log3 := by
      intro hmem
      have := (hlogs _ hmem).1
      simp [Event.isLog] at this
    have hnl1 : Event.getConsumerOffsets g tp ∉ log1 := fun hm => hnl (by simp [hm])
    have hnl2 : Event.getConsumerOffsets g tp ∉ log2 := fun hm => hnl (by simp [hm])
    have hnl3 : Event.getConsumerOffsets g tp ∉ log3 := fun hm => hnl (by simp [hm])
    have hnotem : Event.getConsumerOffsets g tp ∉ emitted := by
      intro hmem
      have := (hemitted _ hmem).1
      simp [Event.inSetMetrics] at this
    have hsuffix : Event.getConsumerOffsets g tp ∉
        Event.getHighWaterMarks g0 (env.fillTopicPartitions g0 topics w).1 ::
          (log2 ++ [Event.setMetrics g0 records] ++ emitted ++ log3) := by
      simp only [List.mem_append, List.mem_cons, List.mem_singleton, not_or]
      exact ⟨by simp, ⟨⟨hnl2, by simp⟩, hnotem⟩, hnl3⟩
    by_cases ha : Event.getConsumerOffsets g tp =
        Event.getConsumerOffsets g0 (env.fillTopicPartitions g0 topics w).1
    · injection ha with hg htp
      subst hg
      rw [← htp]
      rw [← htp] at hsuffix
      exact after_of_mem_right ⟨_, by simp, rfl⟩ hsuffix
    · apply after_of_not_mem
      simp only [List.mem_append, List.mem_cons, List.mem_singleton, not_or]
      simp only [List.mem_append, List.mem_cons, List.mem_singleton, not_or] at hsuffix
      exact ⟨⟨⟨by simp, ha, by simp⟩, hnl1⟩, hsuffix⟩

theorem collectLoop_before (env : Collaborators W) (args : Args) (g : String)
    (tp : TopicPartitions) (groups : List (String × List String)) :
    ∀ w pre post, (collectLoop env args groups w).1 =
      pre ++ Event.getHighWaterMarks g tp :: post →
      (∃ e ∈ pre, e = Event.getConsumerOffsets g tp) ∧
      (∃ e ∈ pre, ∃ topics, e = Event.fillTopicPartitions g topics tp) := by
  induction groups with
  | nil => intro w pre post h; simp [collectLoop] at h
  | cons kv rest ih =>
    intro w pre post h
    obtain ⟨g0, t0⟩ := kv
    simp only [collectLoop] at h
    exact ⟨before_append
        (collectGroup_before env args g0 t0 w g tp
          (fun e => e = Event.getConsumerOffsets g tp) (Or.inl rfl))
        (fun pre post h => (ih _ pre post h).1) pre post h,
      before_append
        (collectGroup_before env args g0 t0 w g tp
          (fun e => ∃ topics, e = Event.fillTopicPartitions g topics tp) (Or.inr ⟨t0, rfl⟩))
        (fun pre post h => (ih _ pre post h).2) pre post h⟩

theorem collectLoop_after (env : Collaborators W) (args : Args) (g : String)
    (tp : TopicPartitions) (groups : List (String × List String)) :
    ∀ w pre post, (collectLoop env args groups w).1 =
      pre ++ Event.getConsumerOffsets g tp :: post →
      ∃ e ∈ post, e = Event.getHighWaterMarks g tp := by
  induction groups with
  | nil => intro w pre post h; simp [collectLoop] at h
  | cons kv rest ih =>
    intro w pre post h
    obtain ⟨g0, t0⟩ := kv
    simp only [collectLoop] at h
    exact after_append (collectGroup_after env args g0 t0 w g tp) (ih _) pre post h

/-- An event made for a group occurs in the trace of `Collect` only in explicit mode. -/
theorem Collect_group_some (env : Collaborators W) (args : Args) (w : W) (e : Event)
    (g : String) (he : e ∈ (Collect env args w).2) (hg : e.group = some g) :
    args.ConsumerGroupRegex = none ∧ (env.newClusterAdminFromClient w).1 = none ∧
      args.ConsumerGroups ≠ [] := by
  by_contra hnot
  have := Collect_group_none env args w hnot e he
  rw [hg] at this
  cases this

theorem wrapInt64_of_inRange (x : Int) (hlo : -9223372036854775808 ≤ x)
    (hhi : x < 9223372036854775808) : wrapInt64 x = x := by
  unfold wrapInt64
  omega

theorem mem_of_mem_eventsFor {g : String} {trace : List Event} {e : Event}
    (h : e ∈ eventsFor g trace) : e ∈ trace :=
  (List.mem_filter.mp h).1

theorem countP_eventsFor (p : Event → Bool) (g : String) (trace : List Event)
    (hp : ∀ e, p e = true → e.group = some g) :
    List.countP p trace = List.countP p (eventsFor g trace) := by
  unfold eventsFor
  rw [List.countP_filter]
  apply List.countP_congr
  intro e _
  constructor
  · intro h
    simp [h, hp e h]
  · intro h
    simp only [Bool.and_eq_true] at h
    exact h.1

theorem countP_eq_zero_of (p : Event → Bool) (l : List Event)
    (h : ∀ e ∈ l, p e = false) : List.countP p l = 0 := by
  rw [List.countP_eq_zero]
  intro e he
  simp [h e he]

/-- The calls of one turn of the explicit loop that are counted by a predicate which
holds of no log line and of no call made inside `setMetrics`. -/
theorem countP_collectGroup (env : Collaborators W) (args : Args) (g : String)
    (topics : List String) (w : W) (p : Event → Bool)
    (hlog : ∀ e, e.isLog = true → p e = false)
    (hset : ∀ e, e.inSetMetrics = true → p e = false)
    (h : (env.fillTopicPartitions g topics w).1 ≠ []) :
    ∃ records, List.countP p (collectGroup env args g topics w).1 =
      List.countP p [Event.fillTopicPartitions g topics (env.fillTopicPartitions g topics w).1,
        Event.getConsumerOffsets g (env.fillTopicPartitions g topics w).1,
        Event.getHighWaterMarks g (env.fillTopicPartitions g topics w).1,
        Event.setMetrics g records] := by
  obtain ⟨log1, log2, log3, records, emitted, htrace, hlogs, hemitted, _, _⟩ :=
    collectGroup_nonempty env args g topics w h
  refine ⟨records, ?_⟩
  rw [htrace]
  have h1 : List.countP p log1 = 0 :=
    countP_eq_zero_of p log1 fun e he => hlog e (hlogs e (by simp [he])).1
  have h2 : List.countP p log2 = 0 :=
    countP_eq_zero_of p log2 fun e he => hlog e (hlogs e (by simp [he])).1
  have h3 : List.countP p log3 = 0 :=
    countP_eq_zero_of p log3 fun e he => hlog e (hlogs e (by simp [he])).1
  have h4 : List.countP p emitted = 0 :=
    countP_eq_zero_of p emitted fun e he => hset e (hemitted e he).1
  simp only [List.countP_append, List.countP_cons, List.countP_nil, h1, h2, h3, h4]
  omega

/-- The calls that one turn of the explicit loop makes when the topic partitions resolve
non-empty. -/
theorem collectGroup_mem (env : Collaborators W) (args : Args) (g : String)
    (topics : List String) (w : W)
    (h : (env.fillTopicPartitions g topics w).1 ≠ []) :
    Event.getConsumerOffsets g (env.fillTopicPartitions g topics w).1 ∈
      (collectGroup env args g topics w).1 ∧
    Event.getHighWaterMarks g (env.fillTopicPartitions g topics w).1 ∈
      (collectGroup env args g topics w).1 ∧
    ∃ records, Event.setMetrics g records ∈ (collectGroup env args g topics w).1 := by
  obtain ⟨log1, log2, log3, records, emitted, htrace, _, _, _, _⟩ :=
    collectGroup_nonempty env args g topics w h
  rw [htrace]
  exact ⟨by simp, by simp, records, by simp⟩

/-- The first call of `setMetrics` is the entity creation. -/
theorem setMetrics_entity_mem (env : Collaborators W) (args : Args) (g : String)
    (records : List partitionOffsets) (w : W) :
    Event.entity g "ka-consumerGroup" ("clusterName", args.ClusterName) ∈
      (setMetrics env args g records w).2.1 := by
  cases h : (env.entity g "ka-consumerGroup" ("clusterName", args.ClusterName) w).1 with
  | error err => simp [setMetrics, h]
  | ok groupEntity => simp [setMetrics, h]

/-- When the topic partitions resolve non-empty, one turn of the explicit loop calls
`setMetrics` on the records made from what the two fetches returned, and `setMetrics`
creates the entity. -/
theorem collectGroup_setMetrics_mem (env : Collaborators W) (args : Args) (g : String)
    (topics : List String) (w : W)
    (h : (env.fillTopicPartitions g topics w).1 ≠ []) :
    (∃ w1 w2, Event.setMetrics g (populateOffsetStructs
        (env.getConsumerOffsets g (env.fillTopicPartitions g topics w).1 w1).1.1
        (env.getHighWaterMarks (env.fillTopicPartitions g topics w).1 w2).1.1) ∈
      (collectGroup env args g topics w).1) ∧
    Event.entity g "ka-consumerGroup" ("clusterName", args.ClusterName) ∈
      (collectGroup env args g topics w).1 := by
  obtain ⟨log1, log2, log3, records, emitted, htrace, _, _, ⟨w1, w2, hrecords⟩, ⟨w3, hem⟩⟩ :=
    collectGroup_nonempty env args g topics w h
  have hent : Event.entity g "ka-consumerGroup" ("clusterName", args.ClusterName) ∈ emitted :=
    hem ▸ setMetrics_entity_mem env args g records w3
  rw [htrace]
  refine ⟨⟨w1, w2, ?_⟩, ?_⟩
  · rw [← hrecords]; simp
  · simp [hent]

/-- Every turn of the explicit loop starts with the topic resolution. -/
theorem collectGroup_fill_mem (env : Collaborators W) (args : Args) (g : String)
    (topics : List String) (w : W) :
    Event.fillTopicPartitions g topics (env.fillTopicPartitions g topics w).1 ∈
      (collectGroup env args g topics w).1 := by
  by_cases h : (env.fillTopicPartitions g topics w).1 = []
  · rw [collectGroup_empty env args g topics w h, h]; simp
  · obtain ⟨log1, log2, log3, records, emitted, htrace, _, _, _, _⟩ :=
      collectGroup_nonempty env args g topics w h
    rw [htrace]; simp

/-- The one topic resolution of a turn of the explicit loop carries the answer of the
collaborator. -/
theorem collectGroup_filled (env : Collaborators W) (args : Args) (g : String)
    (topics : List String) (w : W) (g' : String) (topics' : List String)
    (tp : TopicPartitions)
    (he : Event.fillTopicPartitions g' topics' tp ∈ (collectGroup env args g topics w).1) :
    tp = (env.fillTopicPartitions g topics w).1 := by
  by_cases h : (env.fillTopicPartitions g topics w).1 = []
  · rw [collectGroup_empty env args g topics w h] at he
    simp only [List.mem_cons, List.mem_singleton] at he
    rcases he with he | he | he
    · injection he with _ _ htp
      rw [htp, h]
    · cases he
    · simp at he
  · obtain ⟨log1, log2, log3, records, emitted, htrace, hlogs, hemitted, _, _⟩ :=
      collectGroup_nonempty env args g topics w h
    rw [htrace] at he
    have hnl : Event.fillTopicPartitions g' topics' tp ∉ log1 ++ log2 ++ log3 := by
      intro hmem
      have := (hlogs _ hmem).1
      simp [Event.isLog] at this
    have hnotem : Event.fillTopicPartitions g' topics' tp ∉ emitted := by
      intro hmem
      have := (hemitted _ hmem).1
      simp [Event.inSetMetrics] at this
    simp only [List.mem_append, List.mem_cons, List.mem_singleton] at he
    rcases he with ((he | he | he) | he) | he | ((he | he) | he) | he
    · injection he with _ _ htp
    · cases he
    · simp at he
    · exact absurd (by simp [he]) hnl
    · cases he
    · exact absurd (by simp [he]) hnl
    · rcases he with he | he
      · cases he
      · simp at he
    · exact absurd he hnotem
    · exact absurd (by simp [he]) hnl

/-- A record marshaled in one turn of the explicit loop is one of the records that
`populateOffsetStructs` made from what the two fetches of the group returned. -/
theorem collectGroup_marshaled (env : Collaborators W) (args : Args) (g : String)
    (topics : List String) (w : W) (g' : String) (r : partitionOffsets)
    (he : Event.marshalMetrics g' r ∈ (collectGroup env args g topics w).1) :
    ∃ w1 w2 tp, r ∈ populateOffsetStructs (env.getConsumerOffsets g' tp w1).1.1
      (env.getHighWaterMarks tp w2).1.1 := by
  have hg : g' = g := by
    have := collectGroup_group env args g topics w _ he
    simp only [Event.group, Option.some.injEq] at this
    exact this
  subst hg
  by_cases h : (env.fillTopicPartitions g' topics w).1 = []
  · rw [collectGroup_empty env args g' topics w h] at he
    simp at he
  · obtain ⟨log1, log2, log3, records, emitted, htrace, hlogs, hemitted,
      ⟨w1, w2, hrecords⟩, ⟨w3, hem⟩⟩ := collectGroup_nonempty env args g' topics w h
    rw [htrace] at he
    have hnl : Event.marshalMetrics g' r ∉ log1 ++ log2 ++ log3 := by
      intro hmem
      have := (hlogs _ hmem).1
      simp [Event.isLog] at this
    simp only [List.mem_append, List.mem_cons, List.mem_singleton] at he
    rcases he with ((he | he | he) | he) | he | ((he | he) | he) | he
    · cases he
    · cases he
    · simp at he
    · exact absurd (by simp [he]) hnl
    · cases he
    · exact absurd (by simp [he]) hnl
    · rcases he with he | he
      · cases he
      · simp at he
    · rw [hem] at he
      have := setMetrics_marshaled env args g' records w3 g' r he
      rw [hrecords] at this
      exact ⟨w1, w2, _, this⟩
    · exact absurd (by simp [he]) hnl

theorem collectLoop_marshaled (env : Collaborators W) (args : Args) (g : String)
    (r : partitionOffsets) (groups : List (String × List String)) :
    ∀ w, Event.marshalMetrics g r ∈ (collectLoop env args groups w).1 →
    ∃ w1 w2 tp, r ∈ populateOffsetStructs (env.getConsumerOffsets g tp w1).1.1
      (env.getHighWaterMarks tp w2).1.1 := by
  induction groups with
  | nil => intro w he; simp [collectLoop] at he
  | cons kv rest ih =>
    intro w he
    obtain ⟨g0, t0⟩ := kv
    simp only [collectLoop, List.mem_append] at he
    rcases he with he | he
    · exact collectGroup_marshaled env args g0 t0 w g r he
    · exact ih _ he

/-- The fields of a record made by `populateOffsetStructs`. -/
theorem populateOffsetStructs_mem (offsets : OffsetRecord) (hwms : WatermarkRecord)
    (r : partitionOffsets) (h : r ∈ populateOffsetStructs offsets hwms) :
    ∃ key, (key ∈ offsets.map Prod.fst ∨ key ∈ hwms.map Prod.fst) ∧
      r.Topic = key.1 ∧
      r.ConsumerOffset = recordValue offsets key ∧
      r.HighWaterMark = recordValue hwms key ∧
      r.ConsumerLag = consumerLag r.ConsumerOffset r.HighWaterMark := by
  simp only [populateOffsetStructs, List.mem_map] at h
  obtain ⟨key, hkey, rfl⟩ := h
  refine ⟨key, ?_, rfl, rfl, rfl, rfl⟩
  simpa [recordKeys] using hkey

theorem group_of_isFillTopicPartitions (g : String) (e : Event) (h : Event.isFillTopicPartitions g e = true) :
    e.group = some g := by
  cases e <;> simp_all [Event.isFillTopicPartitions, Event.group]

theorem group_of_isGetConsumerOffsets (g : String) (e : Event) (h : Event.isGetConsumerOffsets g e = true) :
    e.group = some g := by
  cases e <;> simp_all [Event.isGetConsumerOffsets, Event.group]

theorem group_of_isGetHighWaterMarks (g : String) (e : Event) (h : Event.isGetHighWaterMarks g e = true) :
    e.group = some g := by
  cases e <;> simp_all [Event.isGetHighWaterMarks, Event.group]

theorem group_of_isSetMetrics (g : String) (e : Event) (h : Event.isSetMetrics g e = true) :
    e.group = some g := by
  cases e <;> simp_all [Event.isSetMetrics, Event.group]

theorem group_of_isEmission (g : String) (e : Event) (h : Event.isEmission g e = true) :
    e.group = some g := by
  cases e <;> simp_all [Event.isEmission, Event.group]

theorem isFillTopicPartitions_of_isLog (g : String) (e : Event) (h : e.isLog = true) :
    Event.isFillTopicPartitions g e = false := by
  cases e <;> simp_all [Event.isFillTopicPartitions, Event.isLog]

theorem isFillTopicPartitions_of_inSetMetrics (g : String) (e : Event) (h : e.inSetMetrics = true) :
    Event.isFillTopicPartitions g e = false := by
  cases e <;> simp_all [Event.isFillTopicPartitions, Event.inSetMetrics]

theorem isGetConsumerOffsets_of_isLog (g : String) (e : Event) (h : e.isLog = true) :
    Event.isGetConsumerOffsets g e = false := by
  cases e <;> simp_all [Event.isGetConsumerOffsets, Event.isLog]

theorem isGetConsumerOffsets_of_inSetMetrics (g : String) (e : Event) (h : e.inSetMetrics = true) :
    Event.isGetConsumerOffsets g e = false := by
  cases e <;> simp_all [Event.isGetConsumerOffsets, Event.inSetMetrics]

theorem isGetHighWaterMarks_of_isLog (g : String) (e : Event) (h : e.isLog = true) :
    Event.isGetHighWaterMarks g e = false := by
  cases e <;> simp_all [Event.isGetHighWaterMarks, Event.isLog]

theorem isGetHighWaterMarks_of_inSetMetrics (g : String) (e : Event) (h : e.inSetMetrics = true) :
    Event.isGetHighWaterMarks g e = false := by
  cases e <;> simp_all [Event.isGetHighWaterMarks, Event.inSetMetrics]

theorem isSetMetrics_of_isLog (g : String) (e : Event) (h : e.isLog = true) :
    Event.isSetMetrics g e = false := by
  cases e <;> simp_all [Event.isSetMetrics, Event.isLog]

theorem isSetMetrics_of_inSetMetrics (g : String) (e : Event) (h : e.inSetMetrics = true) :
    Event.isSetMetrics g e = false := by
  cases e <;> simp_all [Event.isSetMetrics, Event.inSetMetrics]

/-! ## The claims -/

/-- Claim C1, as the code has it. With no regex and an empty `consumer_groups` mapping,
`Collect` always fails and makes exactly one call, `sarama.NewClusterAdminFromClient`: no
entity and no metric set is created. When that call succeeds the error is the configuration
error of line 96; when it fails the error is the admin failure of line 32. -/
theorem Collect_unconfigured (env : Collaborators W) (args : Args) (w : W)
    (hre : args.ConsumerGroupRegex = none) (hcg : args.ConsumerGroups = []) :
    (Collect env args w).2 = [Event.newClusterAdminFromClient] ∧
    (Collect env args w).1 ≠ none ∧
    ((env.newClusterAdminFromClient w).1 = none →
      (Collect env args w).1 = some configurationError) ∧
    (∀ err, (env.newClusterAdminFromClient w).1 = some err →
      (Collect env args w).1 = some ("failed to create cluster admin: " ++ err)) := by
  cases hadmin : (env.newClusterAdminFromClient w).1 with
  | some err => simp [Collect, hadmin]
  | none => simp [Collect, hadmin, hre, hcg, configurationError]

/-- Claim C1 on a healthy cluster with nothing configured: the admin handle is created and the
configuration error is returned. -/
theorem Collect_unconfigured_witness :
    unconfiguredArgs.ConsumerGroupRegex = none ∧ unconfiguredArgs.ConsumerGroups = [] ∧
    (Collect steady unconfiguredArgs ()).2 = [Event.newClusterAdminFromClient] ∧
    (Collect steady unconfiguredArgs ()).1 ≠ none ∧
    ((steady.newClusterAdminFromClient ()).1 = none →
      (Collect steady unconfiguredArgs ()).1 = some configurationError) ∧
    (∀ err, (steady.newClusterAdminFromClient ()).1 = some err →
      (Collect steady unconfiguredArgs ()).1 =
        some ("failed to create cluster admin: " ++ err)) :=
  ⟨rfl, rfl, Collect_unconfigured steady unconfiguredArgs () rfl rfl⟩

/-- Claim C1 as stated fails. On a healthy cluster the unconfigured run does call
`sarama.NewClusterAdminFromClient`, and on an unreachable cluster the unconfigured run fails
with the admin failure, not with the configuration error. -/
theorem Collect_unconfigured_contacts_cluster :
    ¬ ((Collect steady unconfiguredArgs ()).1 = some configurationError ∧
      Event.newClusterAdminFromClient ∉ (Collect steady unconfiguredArgs ()).2) ∧
    (Collect unreachable unconfiguredArgs ()).1 ≠ some configurationError := by
  decide

/-- Claim C2 fails on the code. For a listing with the keys `g1`, `g2` and `other` the list
passed to `DescribeConsumerGroups` starts with three empty strings and has six elements, and
for a listing with the one key `g1` it is the empty string followed by `g1`. -/
theorem consumerGroupList_pads_with_empty_ids :
    consumerGroupList [("g1", "consumer")] = ["", "g1"] ∧
    Event.describeConsumerGroups ["", "", "", "g1", "g2", "other"] ∈
      (Collect steady regexArgs ()).2 := by
  decide

/-- Claim C3. `Collect` returns an error if and only if creating the cluster admin handle
fails, or the regex is set and `ListConsumerGroups` fails, or the regex is set and
`DescribeConsumerGroups` fails on the listed ids, or neither the regex nor a non-empty
`consumer_groups` mapping is set. The collaborators of the per-group work are arbitrary, so
no failure of theirs changes the result. -/
theorem Collect_fails_iff_fatal (env : Collaborators W) (args : Args) (w : W) :
    (Collect env args w).1 ≠ none ↔
      (∃ err, (env.newClusterAdminFromClient w).1 = some err) ∨
      (args.ConsumerGroupRegex ≠ none ∧
        ∃ err, (env.listConsumerGroups (env.newClusterAdminFromClient w).2).1
          = Except.error err) ∨
      (args.ConsumerGroupRegex ≠ none ∧
        ∃ consumerGroupMap err,
          (env.listConsumerGroups (env.newClusterAdminFromClient w).2).1
            = Except.ok consumerGroupMap ∧
          (env.describeConsumerGroups (consumerGroupList consumerGroupMap)
            (env.listConsumerGroups (env.newClusterAdminFromClient w).2).2).1
            = Except.error err) ∨
      (args.ConsumerGroupRegex = none ∧ args.ConsumerGroups = []) := by
  cases hadmin : (env.newClusterAdminFromClient w).1 with
  | some err => simp [Collect, hadmin]
  | none =>
    cases hre : args.ConsumerGroupRegex with
    | none =>
      by_cases hcg : args.ConsumerGroups = []
      · simp [Collect, hadmin, hre, hcg]
      · simp [Collect, hadmin, hre, hcg]
    | some regex =>
      cases hlist : (env.listConsumerGroups (env.newClusterAdminFromClient w).2).1 with
      | error err => simp [Collect, hadmin, hre, hlist]
      | ok consumerGroupMap =>
        cases hdesc : (env.describeConsumerGroups (consumerGroupList consumerGroupMap)
          (env.listConsumerGroups (env.newClusterAdminFromClient w).2).2).1 with
        | error err => simp [Collect, hadmin, hre, hlist, hdesc]
        | ok consumerGroups => simp [Collect, hadmin, hre, hlist, hdesc]

/-- Claim C4. In the trace of `Collect`, what precedes a high-water-mark fetch of a group
holds the offset fetch of that group with the same topic partitions, and the topic
resolution of that group that answered them; and what follows an offset fetch of a group
holds its high-water-mark fetch with the same topic partitions. Such fetches occur in
explicit mode only. -/
theorem Collect_offsets_before_high_water_marks (env : Collaborators W) (args : Args)
    (w : W) (g : String) (tp : TopicPartitions) (pre post : List Event) :
    ((Collect env args w).2 = pre ++ Event.getHighWaterMarks g tp :: post →
      Event.getConsumerOffsets g tp ∈ pre ∧
      ∃ topics, Event.fillTopicPartitions g topics tp ∈ pre) ∧
    ((Collect env args w).2 = pre ++ Event.getConsumerOffsets g tp :: post →
      Event.getHighWaterMarks g tp ∈ post) := by
  constructor
  · intro h
    obtain ⟨hre, hadmin, hcg⟩ := Collect_group_some env args w
      (Event.getHighWaterMarks g tp) g (by rw [h]; simp) rfl
    rw [Collect_explicit env args w hre hadmin hcg] at h
    have hb1 := before_append
      (before_of_not_mem (by simp) :
        ∀ pre post, [Event.newClusterAdminFromClient, Event.logWarnDeprecated] =
          pre ++ Event.getHighWaterMarks g tp :: post →
          ∃ e ∈ pre, e = Event.getConsumerOffsets g tp)
      (fun pre post h => (collectLoop_before env args g tp args.ConsumerGroups
        (env.newClusterAdminFromClient w).2 pre post h).1) pre post h
    have hb2 := before_append
      (before_of_not_mem (by simp) :
        ∀ pre post, [Event.newClusterAdminFromClient, Event.logWarnDeprecated] =
          pre ++ Event.getHighWaterMarks g tp :: post →
          ∃ e ∈ pre, ∃ topics, e = Event.fillTopicPartitions g topics tp)
      (fun pre post h => (collectLoop_before env args g tp args.ConsumerGroups
        (env.newClusterAdminFromClient w).2 pre post h).2) pre post h
    obtain ⟨e1, he1, rfl⟩ := hb1
    obtain ⟨e2, he2, topics, rfl⟩ := hb2
    exact ⟨he1, topics, he2⟩
  · intro h
    obtain ⟨hre, hadmin, hcg⟩ := Collect_group_some env args w
      (Event.getConsumerOffsets g tp) g (by rw [h]; simp) rfl
    rw [Collect_explicit env args w hre hadmin hcg] at h
    obtain ⟨e, he, rfl⟩ := after_append
      (after_of_not_mem (by simp) :
        ∀ pre post, [Event.newClusterAdminFromClient, Event.logWarnDeprecated] =
          pre ++ Event.getConsumerOffsets g tp :: post →
          ∃ e ∈ post, e = Event.getHighWaterMarks g tp)
      (collectLoop_after env args g tp args.ConsumerGroups
        (env.newClusterAdminFromClient w).2) pre post h
    exact he

/-- Claim C4 on the healthy cluster with the mapping of `g1` to `topicA`: the offset fetch and
the topic resolution lie before the high-water-mark fetch. -/
theorem Collect_offsets_before_high_water_marks_witness :
    Event.getConsumerOffsets "g1" [("topicA", [0])] ∈
      [Event.newClusterAdminFromClient, Event.logWarnDeprecated,
        Event.fillTopicPartitions "g1" ["topicA"] [("topicA", [0])],
        Event.getConsumerOffsets "g1" [("topicA", [0])]] ∧
    ∃ topics, Event.fillTopicPartitions "g1" topics [("topicA", [0])] ∈
      [Event.newClusterAdminFromClient, Event.logWarnDeprecated,
        Event.fillTopicPartitions "g1" ["topicA"] [("topicA", [0])],
        Event.getConsumerOffsets "g1" [("topicA", [0])]] :=
  (Collect_offsets_before_high_water_marks steady singleGroupArgs () "g1" [("topicA", [0])]
    [Event.newClusterAdminFromClient, Event.logWarnDeprecated,
      Event.fillTopicPartitions "g1" ["topicA"] [("topicA", [0])],
      Event.getConsumerOffsets "g1" [("topicA", [0])]]
    [Event.setMetrics "g1" [lagExample],
      Event.entity "g1" "ka-consumerGroup" ("clusterName", "cluster"),
      Event.newMetricSet "g1" "KafkaOffsetSample"
        [("displayName", "g1"), ("entityName", "consumerGroup:g1"),
          ("clusterName", "cluster")],
      Event.marshalMetrics "g1" lagExample]).1 (by decide)

/-- Claim C5. In explicit mode, with the keys of the mapping distinct as in a Go map, every
group of the mapping has its topic partitions resolved exactly once, by one call whose
recorded answer is the answer of the `fillTopicPartitions` collaborator. When that answer is
non-empty, `Collect` calls `getConsumerOffsets` and `getHighWaterMarks` with it and calls
`setMetrics`, on the records made from what the two fetches returned, exactly once each for
that group, and `setMetrics` reaches its entity creation. The collaborators are arbitrary,
so this holds whichever calls fail, for this group or for another. -/
theorem Collect_explicit_group_isolated (env : Collaborators W) (args : Args) (w : W)
    (hre : args.ConsumerGroupRegex = none)
    (hadmin : (env.newClusterAdminFromClient w).1 = none)
    (hnodup : (args.ConsumerGroups.map Prod.fst).Nodup)
    (g : String) (topics : List String) (hmem : (g, topics) ∈ args.ConsumerGroups) :
    ∃ w',
      (∀ tp, Event.fillTopicPartitions g topics tp ∈ (Collect env args w).2 ↔
        tp = (env.fillTopicPartitions g topics w').1) ∧
      (Collect env args w).2.countP (Event.isFillTopicPartitions g) = 1 ∧
      ((env.fillTopicPartitions g topics w').1 ≠ [] →
        Event.getConsumerOffsets g (env.fillTopicPartitions g topics w').1 ∈
          (Collect env args w).2 ∧
        (Collect env args w).2.countP (Event.isGetConsumerOffsets g) = 1 ∧
        Event.getHighWaterMarks g (env.fillTopicPartitions g topics w').1 ∈
          (Collect env args w).2 ∧
        (Collect env args w).2.countP (Event.isGetHighWaterMarks g) = 1 ∧
        (∃ w1 w2, Event.setMetrics g (populateOffsetStructs
            (env.getConsumerOffsets g (env.fillTopicPartitions g topics w').1 w1).1.1
            (env.getHighWaterMarks (env.fillTopicPartitions g topics w').1 w2).1.1) ∈
          (Collect env args w).2) ∧
        (Collect env args w).2.countP (Event.isSetMetrics g) = 1 ∧
        Event.entity g "ka-consumerGroup" ("clusterName", args.ClusterName) ∈
          (Collect env args w).2) := by
  obtain ⟨w', hw'⟩ := eventsFor_Collect env args w hre hadmin hnodup g topics hmem
  have hsub : ∀ e, e ∈ (collectGroup env args g topics w').1 → e ∈ (Collect env args w).2 :=
    fun e he => mem_of_mem_eventsFor (hw' ▸ he)
  refine ⟨w', ?_, ?_, ?_⟩
  · intro tp
    constructor
    · intro hfill
      have : Event.fillTopicPartitions g topics tp ∈ eventsFor g (Collect env args w).2 :=
        List.mem_filter.mpr ⟨hfill, by simp [Event.group]⟩
      rw [hw'] at this
      exact collectGroup_filled env args g topics w' g topics tp this
    · intro htp
      rw [htp]
      exact hsub _ (collectGroup_fill_mem env args g topics w')
  · rw [countP_eventsFor _ g _ (group_of_isFillTopicPartitions g), hw']
    by_cases h : (env.fillTopicPartitions g topics w').1 = []
    · rw [collectGroup_empty env args g topics w' h]
      simp [Event.isFillTopicPartitions]
    · obtain ⟨records, hcount⟩ := countP_collectGroup env args g topics w'
        (Event.isFillTopicPartitions g)
        (isFillTopicPartitions_of_isLog g) (isFillTopicPartitions_of_inSetMetrics g)
        h
      rw [hcount]
      simp [Event.isFillTopicPartitions]
  · intro h
    obtain ⟨hm1, hm2, _, _⟩ := collectGroup_mem env args g topics w' h
    obtain ⟨⟨w1, w2, hm3⟩, hm4⟩ := collectGroup_setMetrics_mem env args g topics w' h
    refine ⟨hsub _ hm1, ?_, hsub _ hm2, ?_, ⟨w1, w2, hsub _ hm3⟩, ?_, hsub _ hm4⟩
    · rw [countP_eventsFor _ g _ (group_of_isGetConsumerOffsets g), hw']
      obtain ⟨records, hcount⟩ := countP_collectGroup env args g topics w'
        (Event.isGetConsumerOffsets g)
        (isGetConsumerOffsets_of_isLog g) (isGetConsumerOffsets_of_inSetMetrics g)
        h
      rw [hcount]
      simp [Event.isGetConsumerOffsets]
    · rw [countP_eventsFor _ g _ (group_of_isGetHighWaterMarks g), hw']
      obtain ⟨records, hcount⟩ := countP_collectGroup env args g topics w'
        (Event.isGetHighWaterMarks g)
        (isGetHighWaterMarks_of_isLog g) (isGetHighWaterMarks_of_inSetMetrics g)
        h
      rw [hcount]
      simp [Event.isGetHighWaterMarks]
    · rw [countP_eventsFor _ g _ (group_of_isSetMetrics g), hw']
      obtain ⟨records, hcount⟩ := countP_collectGroup env args g topics w'
        (Event.isSetMetrics g)
        (isSetMetrics_of_isLog g) (isSetMetrics_of_inSetMetrics g)
        h
      rw [hcount]
      simp [Event.isSetMetrics]

/-- Claim C5 on a cluster where every offset fetch times out, marshaling fails and the entity
of `g2` cannot be created: the topic partitions of `g1` resolve to partition 0 of `topicA`,
and `g1` gets its offset fetch, its high-water-mark fetch and its `setMetrics` call, on the
one record without lag, exactly once each. -/
theorem Collect_explicit_group_isolated_witness :
    explicitArgs.ConsumerGroupRegex = none ∧
    (faulty.newClusterAdminFromClient ()).1 = none ∧
    (explicitArgs.ConsumerGroups.map Prod.fst).Nodup ∧
    ("g1", ["topicA"]) ∈ explicitArgs.ConsumerGroups ∧
    (faulty.fillTopicPartitions "g1" ["topicA"] ()).1 = [("topicA", [0])] ∧
    Event.getConsumerOffsets "g1" [("topicA", [0])] ∈ (Collect faulty explicitArgs ()).2 ∧
    (Collect faulty explicitArgs ()).2.countP (Event.isGetConsumerOffsets "g1") = 1 ∧
    Event.getHighWaterMarks "g1" [("topicA", [0])] ∈ (Collect faulty explicitArgs ()).2 ∧
    (Collect faulty explicitArgs ()).2.countP (Event.isGetHighWaterMarks "g1") = 1 ∧
    (∃ w1 w2, Event.setMetrics "g1" (populateOffsetStructs
        (faulty.getConsumerOffsets "g1" [("topicA", [0])] w1).1.1
        (faulty.getHighWaterMarks [("topicA", [0])] w2).1.1) ∈
      (Collect faulty explicitArgs ()).2) ∧
    (Collect faulty explicitArgs ()).2.countP (Event.isSetMetrics "g1") = 1 ∧
    Event.entity "g1" "ka-consumerGroup" ("clusterName", "cluster") ∈
      (Collect faulty explicitArgs ()).2 := by
  refine ⟨rfl, rfl, by decide, by decide, rfl, ?_⟩
  obtain ⟨⟨⟩, _, _, hcalls⟩ := Collect_explicit_group_isolated faulty explicitArgs () rfl rfl
    (by decide) "g1" ["topicA"] (by decide)
  exact hcalls (by decide)

/-- Claim C6. Every record that `Collect` hands to `MarshalMetrics` has `ConsumerLag` present
if and only if both `ConsumerOffset` and `HighWaterMark` are present; when they are, the lag
is the `int64` difference `HighWaterMark - ConsumerOffset`, which is the integer difference
whenever that fits in an `int64`; and the two inputs are what the fetched records of the
group hold for the partition, an absent value staying absent. -/
theorem Collect_lag_iff_both_present (env : Collaborators W) (args : Args) (w : W)
    (g : String) (r : partitionOffsets)
    (h : Event.marshalMetrics g r ∈ (Collect env args w).2) :
    (r.ConsumerLag.isSome = true ↔
      r.ConsumerOffset.isSome = true ∧ r.HighWaterMark.isSome = true) ∧
    (∀ offset hwm, r.ConsumerOffset = some offset → r.HighWaterMark = some hwm →
      r.ConsumerLag = some (subInt64 hwm offset) ∧
      (-9223372036854775808 ≤ hwm - offset → hwm - offset < 9223372036854775808 →
        r.ConsumerLag = some (hwm - offset))) ∧
    (∃ w1 w2 tp key,
      r.ConsumerOffset = recordValue (env.getConsumerOffsets g tp w1).1.1 key ∧
      r.HighWaterMark = recordValue (env.getHighWaterMarks tp w2).1.1 key) := by
  obtain ⟨hre, hadmin, hcg⟩ := Collect_group_some env args w _ g h rfl
  rw [Collect_explicit env args w hre hadmin hcg] at h
  have hloop : Event.marshalMetrics g r ∈
      (collectLoop env args args.ConsumerGroups (env.newClusterAdminFromClient w).2).1 := by
    simpa using h
  obtain ⟨w1, w2, tp, hr⟩ := collectLoop_marshaled env args g r _ _ hloop
  obtain ⟨key, _, _, hoff, hhwm, hlag⟩ := populateOffsetStructs_mem _ _ r hr
  refine ⟨?_, ?_, ⟨w1, w2, tp, key, hoff, hhwm⟩⟩
  · rw [hlag]
    cases r.ConsumerOffset <;> cases r.HighWaterMark <;> simp [consumerLag]
  · intro offset hwm ho hh
    rw [hlag, ho, hh]
    refine ⟨rfl, fun hlo hhi => ?_⟩
    simp only [consumerLag, subInt64, wrapInt64_of_inRange _ hlo hhi]

/-- Claim C6 on the healthy cluster with the mapping of `g1` to `topicA`: offset 100 and high-
water mark 150 give lag 50. -/
theorem Collect_lag_iff_both_present_witness :
    Event.marshalMetrics "g1" lagExample ∈ (Collect steady singleGroupArgs ()).2 ∧
    lagExample.ConsumerOffset = some 100 ∧ lagExample.HighWaterMark = some 150 ∧
    lagExample.ConsumerLag = some (150 - 100) :=
  ⟨by decide, rfl, rfl,
    (((Collect_lag_iff_both_present steady singleGroupArgs () "g1" lagExample
      (by decide)).2.1 100 150 rfl rfl).2 (by decide) (by decide))⟩

/-- Claim C7. In regex mode, when the admin handle, the listing and the description succeed,
`Collect` starts one task per described group whose id matches the regex, with that group's
id and members and in description order, and no other task; the unmatched list holds the
ids of the described groups that do not match, in description order; and the whole trace is
the five calls of the selection, the task starts, the log line of the unmatched list when
it is non-empty, and the wait. -/
theorem Collect_regex_tasks (env : Collaborators W) (args : Args) (w : W)
    (regex : String → Bool) (consumerGroupMap : List (String × String))
    (consumerGroups : List GroupDescription)
    (hre : args.ConsumerGroupRegex = some regex)
    (hadmin : (env.newClusterAdminFromClient w).1 = none)
    (hlist : (env.listConsumerGroups (env.newClusterAdminFromClient w).2).1
      = Except.ok consumerGroupMap)
    (hdesc : (env.describeConsumerGroups (consumerGroupList consumerGroupMap)
      (env.listConsumerGroups (env.newClusterAdminFromClient w).2).2).1
      = Except.ok consumerGroups) :
    (matchLoop regex consumerGroups ([], [])).1 =
      (consumerGroups.filter fun cg => !regex cg.GroupId).map GroupDescription.GroupId ∧
    (Collect env args w).2.filterMap Event.started =
      (consumerGroups.filter fun cg => regex cg.GroupId).map
        (fun cg => (cg.GroupId, cg.Members)) ∧
    Collect env args w = (none,
      [Event.newClusterAdminFromClient, Event.listConsumerGroups,
        Event.logDebugList (consumerGroupList consumerGroupMap),
        Event.describeConsumerGroups (consumerGroupList consumerGroupMap),
        Event.logDebugDescriptions]
      ++ (consumerGroups.filter fun cg => regex cg.GroupId).map
        (fun cg => Event.goCollectOffsetsForConsumerGroup cg.GroupId cg.Members)
      ++ (if (matchLoop regex consumerGroups ([], [])).1.length > 0 then
          [Event.logDebugUnmatched (matchLoop regex consumerGroups ([], [])).1] else [])
      ++ [Event.wgWait]) := by
  have hcollect : Collect env args w = (none,
      [Event.newClusterAdminFromClient, Event.listConsumerGroups,
        Event.logDebugList (consumerGroupList consumerGroupMap),
        Event.describeConsumerGroups (consumerGroupList consumerGroupMap),
        Event.logDebugDescriptions]
      ++ (consumerGroups.filter fun cg => regex cg.GroupId).map
        (fun cg => Event.goCollectOffsetsForConsumerGroup cg.GroupId cg.Members)
      ++ (if (matchLoop regex consumerGroups ([], [])).1.length > 0 then
          [Event.logDebugUnmatched (matchLoop regex consumerGroups ([], [])).1] else [])
      ++ [Event.wgWait]) := by
    simp [Collect, hadmin, hre, hlist, hdesc, matchLoop_eq]
  refine ⟨by simp [matchLoop_eq], ?_, hcollect⟩
  rw [hcollect]
  simp only [List.filterMap_append, List.filterMap_map]
  have hlog : List.filterMap Event.started
      (if (matchLoop regex consumerGroups ([], [])).1.length > 0 then
          [Event.logDebugUnmatched (matchLoop regex consumerGroups ([], [])).1] else []) = [] := by
    split <;> rfl
  rw [hlog]
  have hstart : (Event.started ∘ fun cg : GroupDescription =>
      Event.goCollectOffsetsForConsumerGroup cg.GroupId cg.Members) =
      some ∘ fun cg => (cg.GroupId, cg.Members) := rfl
  rw [hstart, List.filterMap_eq_map]
  simp [Event.started]

/-- Claim C7 on the described groups `g1`, `g2` and `other` with a regex that matches the first
two: tasks for `g1` and `g2`, and `other` unmatched. -/
theorem Collect_regex_tasks_witness :
    (matchLoop (fun groupId => groupId == "g1" || groupId == "g2")
      [⟨"g1", ["m1"]⟩, ⟨"g2", []⟩, ⟨"other", ["m2"]⟩] ([], [])).1 = ["other"] ∧
    (Collect steady regexArgs ()).2.filterMap Event.started = [("g1", ["m1"]), ("g2", [])] :=
  ⟨(Collect_regex_tasks steady regexArgs () (fun groupId => groupId == "g1" || groupId == "g2")
      [("g1", "consumer"), ("g2", "consumer"), ("other", "consumer")]
      [⟨"g1", ["m1"]⟩, ⟨"g2", []⟩, ⟨"other", ["m2"]⟩] rfl rfl rfl rfl).1,
    (Collect_regex_tasks steady regexArgs () (fun groupId => groupId == "g1" || groupId == "g2")
      [("g1", "consumer"), ("g2", "consumer"), ("other", "consumer")]
      [⟨"g1", ["m1"]⟩, ⟨"g2", []⟩, ⟨"other", ["m2"]⟩] rfl rfl rfl rfl).2.1⟩

/-- Claim C8. In explicit mode, with the keys of the mapping distinct as in a Go map, when the
topic partitions of a group of the mapping resolve empty, `Collect` returns nil, the only
events of that group are the resolution and the error log line, so that it has no offset
fetch, no high-water-mark fetch, no `setMetrics` call and no SDK call, and every group of
the mapping still has its topic partitions resolved and, when they are non-empty, its two
fetches and its `setMetrics` call. -/
theorem Collect_explicit_empty_group_skipped (env : Collaborators W) (args : Args) (w : W)
    (hre : args.ConsumerGroupRegex = none)
    (hadmin : (env.newClusterAdminFromClient w).1 = none)
    (hnodup : (args.ConsumerGroups.map Prod.fst).Nodup)
    (g : String) (topics : List String) (hmem : (g, topics) ∈ args.ConsumerGroups)
    (hempty : Event.fillTopicPartitions g topics [] ∈ (Collect env args w).2) :
    (Collect env args w).1 = none ∧
    eventsFor g (Collect env args w).2 =
      [Event.fillTopicPartitions g topics [], Event.logErrorNoTopics g] ∧
    (Collect env args w).2.countP (Event.isGetConsumerOffsets g) = 0 ∧
    (Collect env args w).2.countP (Event.isGetHighWaterMarks g) = 0 ∧
    (Collect env args w).2.countP (Event.isSetMetrics g) = 0 ∧
    (Collect env args w).2.countP (Event.isEmission g) = 0 ∧
    (∀ g' topics', (g', topics') ∈ args.ConsumerGroups →
      ∃ tp, Event.fillTopicPartitions g' topics' tp ∈ (Collect env args w).2 ∧
        (tp ≠ [] →
          Event.getConsumerOffsets g' tp ∈ (Collect env args w).2 ∧
          Event.getHighWaterMarks g' tp ∈ (Collect env args w).2 ∧
          ∃ records, Event.setMetrics g' records ∈ (Collect env args w).2)) := by
  have hcg : args.ConsumerGroups ≠ [] := List.ne_nil_of_mem hmem
  obtain ⟨w', hw'⟩ := eventsFor_Collect env args w hre hadmin hnodup g topics hmem
  have hfilled : (env.fillTopicPartitions g topics w').1 = [] := by
    have : Event.fillTopicPartitions g topics [] ∈ eventsFor g (Collect env args w).2 :=
      List.mem_filter.mpr ⟨hempty, by simp [Event.group]⟩
    rw [hw'] at this
    exact (collectGroup_filled env args g topics w' g topics [] this).symm
  have hevents : eventsFor g (Collect env args w).2 =
      [Event.fillTopicPartitions g topics [], Event.logErrorNoTopics g] := by
    rw [hw', collectGroup_empty env args g topics w' hfilled]
  refine ⟨by rw [Collect_explicit env args w hre hadmin hcg], hevents, ?_, ?_, ?_, ?_, ?_⟩
  · rw [countP_eventsFor _ g _ (group_of_isGetConsumerOffsets g), hevents]
    simp [Event.isGetConsumerOffsets]
  · rw [countP_eventsFor _ g _ (group_of_isGetHighWaterMarks g), hevents]
    simp [Event.isGetHighWaterMarks]
  · rw [countP_eventsFor _ g _ (group_of_isSetMetrics g), hevents]
    simp [Event.isSetMetrics]
  · rw [countP_eventsFor _ g _ (group_of_isEmission g), hevents]
    simp [Event.isEmission]
  · intro g' topics' hmem'
    obtain ⟨w2, hw2⟩ := eventsFor_Collect env args w hre hadmin hnodup g' topics' hmem'
    have hsub : ∀ e, e ∈ (collectGroup env args g' topics' w2).1 →
        e ∈ (Collect env args w).2 := fun e he => mem_of_mem_eventsFor (hw2 ▸ he)
    refine ⟨(env.fillTopicPartitions g' topics' w2).1,
      hsub _ (collectGroup_fill_mem env args g' topics' w2), ?_⟩
    intro h
    obtain ⟨hm1, hm2, records, hm3⟩ := collectGroup_mem env args g' topics' w2 h
    exact ⟨hsub _ hm1, hsub _ hm2, records, hsub _ hm3⟩

/-- Claim C8 on a mapping whose first group `g0` has no topics: nothing is fetched for `g0` and
the run returns nil. -/
theorem Collect_explicit_empty_group_skipped_witness :
    Event.fillTopicPartitions "g0" [] [] ∈ (Collect faulty explicitArgs ()).2 ∧
    (Collect faulty explicitArgs ()).1 = none ∧
    eventsFor "g0" (Collect faulty explicitArgs ()).2 =
      [Event.fillTopicPartitions "g0" [] [], Event.logErrorNoTopics "g0"] ∧
    (Collect faulty explicitArgs ()).2.countP (Event.isGetConsumerOffsets "g0") = 0 :=
  ⟨by decide,
    (Collect_explicit_empty_group_skipped faulty explicitArgs () rfl rfl (by decide)
      "g0" [] (by decide) (by decide)).1,
    (Collect_explicit_empty_group_skipped faulty explicitArgs () rfl rfl (by decide)
      "g0" [] (by decide) (by decide)).2.1,
    (Collect_explicit_empty_group_skipped faulty explicitArgs () rfl rfl (by decide)
      "g0" [] (by decide) (by decide)).2.2.1⟩

/-- Claim C9. `setMetrics` returns an error if and only if creating the group entity fails;
then the error is that failure and the entity creation is its only call, so no metric
set is created. When the entity is created, `setMetrics` returns nil and its calls, log
lines left out, are the entity creation followed, for each record in input order, by one
`NewMetricSet` and one `MarshalMetrics` of that record, whatever the marshaling answers. -/
theorem setMetrics_fails_iff_entity_fails (env : Collaborators W) (args : Args)
    (consumerGroup : String) (offsetData : List partitionOffsets) (w : W) :
    ((setMetrics env args consumerGroup offsetData w).1 ≠ none ↔
      ∃ err, (env.entity consumerGroup "ka-consumerGroup"
        ("clusterName", args.ClusterName) w).1 = Except.error err) ∧
    (∀ err, (env.entity consumerGroup "ka-consumerGroup"
        ("clusterName", args.ClusterName) w).1 = Except.error err →
      (setMetrics env args consumerGroup offsetData w).1 = some err ∧
      (setMetrics env args consumerGroup offsetData w).2.1 =
        [Event.entity consumerGroup "ka-consumerGroup" ("clusterName", args.ClusterName)]) ∧
    (∀ groupEntity, (env.entity consumerGroup "ka-consumerGroup"
        ("clusterName", args.ClusterName) w).1 = Except.ok groupEntity →
      (setMetrics env args consumerGroup offsetData w).1 = none ∧
      (setMetrics env args consumerGroup offsetData w).2.1.filter (fun e => !e.isLog) =
        Event.entity consumerGroup "ka-consumerGroup" ("clusterName", args.ClusterName) ::
          offsetData.flatMap fun r =>
            [Event.newMetricSet consumerGroup "KafkaOffsetSample"
              [("displayName", groupEntity.Name),
                ("entityName", "consumerGroup:" ++ groupEntity.Name),
                ("clusterName", args.ClusterName)],
              Event.marshalMetrics consumerGroup r]) := by
  cases h : (env.entity consumerGroup "ka-consumerGroup" ("clusterName", args.ClusterName) w).1 with
  | error err => simp [setMetrics, h]
  | ok groupEntity =>
    have hent : ∀ a b c, (Event.entity a b c).isLog = false := fun _ _ _ => rfl
    simp [setMetrics, h, marshalLoop_calls, hent]

/-- Claim C9 on two records of which the first cannot be marshaled: both get their metric set
and their marshaling, and `setMetrics` returns nil. -/
theorem setMetrics_fails_iff_entity_fails_witness :
    (faulty.entity "g1" "ka-consumerGroup" ("clusterName", "cluster") ()).1 =
      Except.ok ⟨"g1"⟩ ∧
    (faulty.marshalMetrics noLagExample ()).1 = some "no lag" ∧
    (setMetrics faulty explicitArgs "g1" [noLagExample, lagExample] ()).1 = none ∧
    (setMetrics faulty explicitArgs "g1" [noLagExample, lagExample] ()).2.1.filter
        (fun e => !e.isLog) =
      Event.entity "g1" "ka-consumerGroup" ("clusterName", "cluster") ::
        [noLagExample, lagExample].flatMap fun r =>
          [Event.newMetricSet "g1" "KafkaOffsetSample"
            [("displayName", "g1"), ("entityName", "consumerGroup:" ++ "g1"),
              ("clusterName", "cluster")],
            Event.marshalMetrics "g1" r] :=
  ⟨rfl, rfl,
    (setMetrics_fails_iff_entity_fails faulty explicitArgs "g1" [noLagExample, lagExample]
      ()).2.2 ⟨"g1"⟩ rfl⟩

/-- Claim C10. When the regex is set, the result and the trace of `Collect` do not depend on
the `consumer_groups` mapping, and no call of the trace is one of the explicit path or of
`setMetrics`: no topic resolution, no fetch and no emission is made for any group. So a call
of the explicit path occurs only when the regex is unset. -/
theorem Collect_regex_wins (env : Collaborators W) (args : Args) (w : W)
    (regex : String → Bool) (hre : args.ConsumerGroupRegex = some regex) :
    (∀ consumerGroups,
      Collect env { args with ConsumerGroups := consumerGroups } w = Collect env args w) ∧
    (∀ e ∈ (Collect env args w).2, e.group = none) := by
  constructor
  · intro consumerGroups
    simp [Collect, hre]
  · exact Collect_group_none env args w (by simp [hre])

/-- Claim C10 on the healthy cluster with both the regex and a mapping set: the mapping is not
used. -/
theorem Collect_regex_wins_witness :
    regexArgs.ConsumerGroupRegex = some (fun groupId => groupId == "g1" || groupId == "g2") ∧
    (∀ consumerGroups,
      Collect steady { regexArgs with ConsumerGroups := consumerGroups } () =
        Collect steady regexArgs ()) ∧
    (∀ e ∈ (Collect steady regexArgs ()).2, e.group = none) :=
  ⟨rfl, Collect_regex_wins steady regexArgs () _ rfl⟩

end ConsumerOffset
